import Mathlib

/-!
Verification development for the sliger repository.

The Python sources (`sliger/cli.py`, `sliger/slides_utils.py`,
`sliger/jinja_utils.py`, `sliger/drive_utils.py`, `sliger/__init__.py`)
are shallowly embedded below.  Python strings are modelled as `List Char`,
Python dicts holding Google Slides API requests as the JSON-like type
`JVal`, and the effectful CLI commands as pure functions that record the
batch-update API calls they would issue.  External collaborators (the
Jinja template engine, the file system, the Drive upload client and the
wall clock) are passed in as function parameters, so each embedded
operation is a total computable function of its inputs.
-/

namespace Sliger

/-- Python strings are modelled as lists of characters. -/
abbrev Str := List Char

/-- Coerce a Lean string literal to the `Str` model. -/
def str (s : String) : Str := s.data

/-- The whitespace characters stripped by Python `str.strip()`
(ASCII subset: space, tab, newline, carriage return, vertical tab, form feed). -/
def isPySpace (c : Char) : Bool :=
  c == ' ' || c == '\t' || c == '\n' || c == '\r' || c == '\x0b' || c == '\x0c'

/-- Python `str.lstrip()`. -/
def pyLStrip (s : Str) : Str := s.dropWhile isPySpace

/-- Python `str.rstrip()`. -/
def pyRStrip (s : Str) : Str := (s.reverse.dropWhile isPySpace).reverse

/-- Python `str.strip()`: remove leading and trailing whitespace. -/
def pyStrip (s : Str) : Str := pyRStrip (pyLStrip s)

/-- Python substring test `needle in haystack`. -/
def pyIn (needle haystack : Str) : Bool :=
  match haystack with
  | [] => needle.isEmpty
  | _ :: t => needle.isPrefixOf haystack || pyIn needle t

/-- Fuel-indexed worker for Python `str.replace` with a non-empty pattern:
scan left to right, replacing each non-overlapping occurrence.  The fuel is
an upper bound on the length of the string still to scan, so the function
is structurally recursive (and hence reducible by the kernel). -/
def pyReplaceGo (old new : Str) : Nat → Str → Str
  | _, [] => []
  | 0, s => s
  | fuel + 1, c :: rest =>
    if old.isPrefixOf (c :: rest) ∧ old ≠ [] then
      new ++ pyReplaceGo old new fuel ((c :: rest).drop old.length)
    else
      c :: pyReplaceGo old new fuel rest

/-- Python `s.replace(old, new)` (all non-overlapping occurrences, left to
right; an empty `old` inserts `new` before every character and at the end). -/
def pyReplace (s old new : Str) : Str :=
  if old = [] then new ++ s.flatMap (fun c => c :: new)
  else pyReplaceGo old new s.length s

/-- Python extended slice `s[start::step]` for `step > 0`: the characters at
indices `start, start + step, start + 2*step, …`. -/
def pySlice (s : Str) (start step : Nat) : Str :=
  (List.range s.length).filterMap
    (fun i => if start ≤ i ∧ (i - start) % step = 0 then s.get? i else none)

end Sliger

namespace Sliger

/-- JSON-like values, modelling the Python dict/list/str/bool/None payloads
that the tool sends to the Google Slides batch-update API. -/
inductive JVal where
  | null
  | s (v : String)
  | cs (v : Str)
  | b (v : Bool)
  | arr (elems : List JVal)
  | obj (fields : List (String × JVal))

/-- First-match association-list lookup (Python dict access, with the keys
kept unique by `pyDictSet`). -/
def dget {V : Type _} : List (String × V) → String → Option V
  | [], _ => none
  | (k, v) :: t, key => if k = key then some v else dget t key

/-- Python dict assignment `d[k] = v`: replace the value in place if the key
is present, otherwise append the binding. -/
def pyDictSet {V : Type _} : List (String × V) → String × V → List (String × V)
  | [], kv => [kv]
  | (k1, v1) :: t, (k, v) => if k1 = k then (k1, v) :: t else (k1, v1) :: pyDictSet t (k, v)

/-- Field access on a `JVal` object. -/
def jGet (j : JVal) (k : String) : Option JVal :=
  match j with
  | .obj fields => dget fields k
  | _ => none

end Sliger

namespace Sliger

/-- The `text.textElements` list of a Google Slides shape: each sub-element
either carries a `textRun` with its `content` string, or does not. -/
structure ShapeText where
  textElements : List (Option Str)
deriving DecidableEq

/-- A Google Slides shape: its declared `shapeType` and optional `text`. -/
structure Shape where
  shapeType : String
  text : Option ShapeText
deriving DecidableEq

/-- A Google Slides page element: `objectId`, optional `shape`, and the
(opaque) `size` and `transform` geometry payloads used by imagify. -/
structure PageElement where
  objectId : String
  shape : Option Shape
  size : Option String
  transform : Option String
deriving DecidableEq

/-- A slide: its `objectId` and ordered `pageElements`. -/
structure Slide where
  objectId : String
  pageElements : List PageElement
deriving DecidableEq

/-- The flat text record produced by `gslides_element_to_text`
(`slides_utils.py`): element id, containing slide id, extracted text. -/
structure TextRecord where
  object_id : String
  page_object_id : String
  text : Str
deriving DecidableEq

/-- Embeds `slides_utils.get_slide_id_by_index` (`slides_utils.py` lines
26-30): 1-based lookup, `None` outside `[1, len(slides)]`.  The index is an
`Int` because the Python parameter is a signed integer. -/
def get_slide_id_by_index (slides : List Slide) (index : Int) : Option String :=
  if 0 < index ∧ index ≤ slides.length then
    (slides.get? (index - 1).toNat).map Slide.objectId
  else
    none

/-- Embeds `slides_utils.get_text_elements_from_slide` (`slides_utils.py`
lines 44-51): keep the page elements whose shape exists and has
`shapeType == "TEXT_BOX"`, in order. -/
def get_text_elements_from_slide (slide : Slide) : List PageElement :=
  slide.pageElements.filter
    (fun el =>
      match el.shape with
      | some sh => sh.shapeType == "TEXT_BOX"
      | none => false)

/-- Concatenation, in order, of the contents of the text runs of a shape's
`textElements` (sub-elements without a `textRun` contribute `""`). -/
def joinRuns (els : List (Option Str)) : Str :=
  (els.map (fun o => o.getD [])).flatten

/-- Embeds `slides_utils.gslides_element_to_text` (`slides_utils.py` lines
54-74).  The Python code indexes `el["shape"]` directly; it is only ever
called on elements that passed the `get_text_elements_from_slide` filter, so
the `none` branch here is unreachable in the pipeline and returns `""`. -/
def gslides_element_to_text (el : PageElement) (page_object_id : String) : TextRecord :=
  match el.shape with
  | none => ⟨el.objectId, page_object_id, []⟩
  | some sh =>
    match sh.text with
    | none => ⟨el.objectId, page_object_id, []⟩
    | some t => ⟨el.objectId, page_object_id, pyStrip (joinRuns t.textElements)⟩

/-- The change dict built by `cli.jinjify` (`cli.py` lines 250-255). -/
structure TextChange where
  original_text : Str
  rendered_text : Str
  page_object_id : String
  object_id : String
deriving DecidableEq

/-- Embeds `slides_utils.text_update_to_gslides_request` (`slides_utils.py`
lines 77-97): a `replaceAllText` request with case-sensitive `containsText`
and the containing slide as the single entry of `pageObjectIds`. -/
def text_update_to_gslides_request (change : TextChange) : JVal :=
  .obj [("replaceAllText", .obj
    [("containsText", .obj [("text", .cs change.original_text), ("matchCase", .b true)]),
     ("replaceText", .cs change.rendered_text),
     ("pageObjectIds", .arr [.s change.page_object_id])])]

/-- The `deleteObject` request dict built in `slides_utils.delete_slide_by_id`
(line 103) and in `cli.imagify` (line 363). -/
def deleteObjectReq (object_id : String) : JVal :=
  .obj [("deleteObject", .obj [("objectId", .s object_id)])]

/-- The `createImage` request dict built in `cli.imagify` (lines 352-361). -/
def createImageReq (url : String) (page_object_id : String)
    (size transform : Option String) : JVal :=
  .obj [("createImage", .obj
    [("url", .s url),
     ("elementProperties", .obj
       [("pageObjectId", .s page_object_id),
        ("size", match size with | some v => .s v | none => .null),
        ("transform", match transform with | some v => .s v | none => .null)])])]

end Sliger

namespace Sliger

/-- The slice of a Python `time.struct_time` that the tool reads: only
`tm_mday` (the day of the month) is ever accessed. -/
structure PyTime where
  tm_mday : Nat
deriving DecidableEq

/-- Embeds the inner `ordinal` helper of
`jinja_utils.strftime_with_ordinal` (`jinja_utils.py` lines 65-67):
the Python expression is
`f"{n:d}{'tsnrhtdd'[(n // 10 % 10 != 1) * (n % 10 < 4) * n % 10::4]}"`,
where the two comparisons coerce to `1`/`0`, multiplication binds left to
right, and `% 10` applies last. -/
def ordinal (n : Nat) : Str :=
  Nat.toDigits 10 n ++
    pySlice (str "tsnrhtdd")
      (((if n / 10 % 10 ≠ 1 then 1 else 0) * (if n % 10 < 4 then 1 else 0) * n) % 10) 4

/-- Embeds `jinja_utils.strftime_with_ordinal` (`jinja_utils.py` lines
58-72): substitute every occurrence of `%O` in the format string with the
ordinal day of the month, then hand the result to `time.strftime`.  The
`time.strftime` builtin is an external collaborator and is passed in as the
`strftime` parameter. -/
def strftime_with_ordinal (strftime : Str → PyTime → Str) (fmt : Str) (t : PyTime) : Str :=
  strftime (pyReplace fmt (str "%O") (ordinal t.tm_mday)) t

/-- The ordinal-suffix rule as the spec states it: the suffix is
`st`/`nd`/`rd` exactly when the last digit of `n` is 1/2/3 and `n` is not
11/12/13, and `th` otherwise. -/
def ordinalSuffixSpec (n : Nat) : Str :=
  if n % 10 = 1 ∧ n ≠ 11 then str "st"
  else if n % 10 = 2 ∧ n ≠ 12 then str "nd"
  else if n % 10 = 3 ∧ n ≠ 13 then str "rd"
  else str "th"

/-- Embeds the context construction of `jinja_utils.render_jinja_in_string`
(`jinja_utils.py` lines 75-85): the dict literal
`{"now": time.localtime(), **data}` binds `now` first and then lays the
caller's entries on top.  `nowVal` is the fresh `time.localtime()` value of
this call. -/
def build_render_data {V : Type _} (nowVal : V) (data : List (String × V)) :
    List (String × V) :=
  data.foldl pyDictSet [("now", nowVal)]

/-- Embeds `jinja_utils.render_jinja_in_string` itself: the Jinja template
engine is abstracted as `renderTpl`, a function of the final context; the
function builds the context and renders. -/
def render_jinja_in_string {V : Type _} (renderTpl : List (String × V) → Str)
    (nowVal : V) (data : List (String × V)) : Str :=
  renderTpl (build_render_data nowVal data)

end Sliger

namespace Sliger

/-- The observable result of one CLI command run: its process exit code,
the list of batch-update API calls issued (each a list of requests), and
whether the "Slide number … doesn't exist" message was printed. -/
structure CmdResult where
  exitCode : Nat
  batches : List (List JVal)
  reportedNotFound : Bool

/-- Embeds `cli.delete_slide` (`cli.py` lines 110-150) from the point where
the slide list has been fetched.  `slidesOpt` is the value returned by
`get_presentation_slides` (`None` on a fetch error); `submitOk` tells
whether the one batch-update round trip would succeed (`HttpError`
otherwise).  The `if not slides` guard covers both `None` and the empty
list, exiting 1 before any index lookup. -/
def delete_slide_cmd (slidesOpt : Option (List Slide)) (slide_number : Int)
    (submitOk : Bool) : CmdResult :=
  match slidesOpt with
  | none => ⟨1, [], false⟩
  | some slides =>
    if slides.isEmpty then ⟨1, [], false⟩
    else
      match get_slide_id_by_index slides slide_number with
      | none => ⟨1, [], true⟩
      | some sid => ⟨if submitOk then 0 else 1, [[deleteObjectReq sid]], false⟩

/-- The per-slide extraction of `cli.jinjify` (`cli.py` lines 228-237):
text-box elements converted to text records. -/
def jinjify_parsed (slide : Slide) : List TextRecord :=
  (get_text_elements_from_slide slide).map
    (fun el => gslides_element_to_text el slide.objectId)

/-- The per-slide request list of `cli.jinjify` (`cli.py` lines 240-256):
one `replaceAllText` request for each record whose rendered text differs
from the original, in record order.  `render` abstracts
`render_jinja_in_string(jinja_env, ·, data)` for the fixed CLI data. -/
def jinjify_slide_requests (render : Str → Str) (slide : Slide) : List JVal :=
  ((jinjify_parsed slide).filter (fun ti => render ti.text != ti.text)).map
    (fun ti => text_update_to_gslides_request
      ⟨ti.text, render ti.text, ti.page_object_id, ti.object_id⟩)

/-- Embeds the main loop of `cli.jinjify` (`cli.py` lines 223-272) for an
error-free run: per slide, submit one batch-update call when the request
list is non-empty (`if update_requests:`) and add its length to the running
total; slides with no text elements are skipped (`continue`), which yields
the same empty request list.  Returns the issued calls and the reported
total. -/
def jinjify_run (render : Str → Str) (slides : List Slide) :
    List (List JVal) × Nat :=
  slides.foldl
    (fun acc slide =>
      let reqs := jinjify_slide_requests render slide
      if reqs.isEmpty then acc else (acc.1 ++ [reqs], acc.2 + reqs.length))
    ([], 0)

end Sliger

namespace Sliger

/-- The whole-string image-placeholder pattern of `cli.imagify`:
`re.fullmatch(r"!\[image\]\((.*)\)", s)` (`cli.py` line 321).  A full match
requires `s` to be exactly `![image](` ++ mid ++ `)` where `mid` (the
captured group) contains no newline, since `.` does not match `\n`. -/
def parseImagePlaceholder (s : Str) : Option Str :=
  if (str "![image](").isPrefixOf s then
    let rest := s.drop (str "![image](").length
    if rest.getLast? = some ')' ∧ '\n' ∉ rest.dropLast then some rest.dropLast
    else none
  else none

/-- Embeds the placeholder matching and path resolution of `cli.imagify`
(`cli.py` lines 316-330): render the element text, strip it, full-match the
placeholder pattern; when the inner path contains both template markers,
render it again; either way strip the final path. -/
def imagify_placeholder_path (render : Str → Str) (text : Str) : Option Str :=
  match parseImagePlaceholder (pyStrip (render text)) with
  | none => none
  | some pt =>
    some (if pyIn (str "\x7b\x7b") pt && pyIn (str "\x7d\x7d") pt
          then pyStrip (render pt) else pyStrip pt)

/-- What happened to one text-box element in the imagify loop. -/
inductive ImagifyOutcome where
  | notPlaceholder
  | missingFile (path : Str)
  | uploadFailed (path : Str)
  | replaced (path : Str) (batch : List JVal)

/-- Embeds the body of the inner element loop of `cli.imagify` (`cli.py`
lines 310-380): match and resolve the placeholder; skip with a warning when
the local path does not exist (`Path(image_path).exists()` is abstracted as
`fExists`); otherwise upload (`upload` abstracts
`drive_utils.upload_image_to_drive`, returning the Drive file id or `None`)
and, on success, submit one batch containing the `createImage` request
(with the text box's own size and transform) and the `deleteObject` request
for the original text box. -/
def imagify_element (render : Str → Str) (fExists : Str → Bool)
    (upload : Str → Option String) (slide_id : String) (el : PageElement) :
    ImagifyOutcome :=
  match imagify_placeholder_path render (gslides_element_to_text el slide_id).text with
  | none => .notPlaceholder
  | some path =>
    if fExists path then
      match upload path with
      | none => .uploadFailed path
      | some driveId =>
        .replaced path
          [createImageReq ("https://drive.google.com/uc?id=" ++ driveId) slide_id
            el.size el.transform,
           deleteObjectReq el.objectId]
    else .missingFile path

/-- The element loop of `cli.imagify` over a list of text-box elements. -/
def imagifyElements (render : Str → Str) (fExists : Str → Bool)
    (upload : Str → Option String) (slide_id : String) (els : List PageElement) :
    List ImagifyOutcome :=
  els.map (imagify_element render fExists upload slide_id)

/-- The upload attempts recorded by one element outcome. -/
def outcomeUploads : ImagifyOutcome → List Str
  | .uploadFailed p => [p]
  | .replaced p _ => [p]
  | _ => []

/-- The batch-update calls recorded by one element outcome. -/
def outcomeBatches : ImagifyOutcome → List (List JVal)
  | .replaced _ b => [b]
  | _ => []

end Sliger

namespace Sliger

/-- A text box for the deck-evolution model used by the idempotence claim:
its element id and its raw text content (the concatenation of its text
runs, as stored by the presentation service). -/
structure SBox where
  objectId : String
  raw : Str
deriving DecidableEq

/-- A slide for the deck-evolution model: id and text boxes. -/
structure SSlide where
  objectId : String
  boxes : List SBox
deriving DecidableEq

/-- The extracted record texts of a slide in the deck-evolution model:
`gslides_element_to_text` on a text box whose runs concatenate to `raw`
yields `pyStrip raw` (see `gslides_element_to_text_on_single_run` below). -/
def sslideTexts (sl : SSlide) : List Str :=
  sl.boxes.map (fun b => pyStrip b.raw)

/-- The originals of the changed records of one slide, in record order
(`cli.py` lines 240-256 keep exactly the records whose rendered text
differs). -/
def sslideChangedTexts (render : Str → Str) (sl : SSlide) : List Str :=
  (sslideTexts sl).filter (fun t => render t != t)

/-- The (original, replacement) pairs of the replace requests that
`cli.jinjify` batches for one slide. -/
def sslideRequests (render : Str → Str) (sl : SSlide) : List (Str × Str) :=
  (sslideChangedTexts render sl).map (fun t => (t, render t))

/-- Modelled from the spec: the effect of one `replaceAllText` request on
the deck state is performed by the external presentation service, whose
contract the spec states as "replacing every occurrence of `original_text`
anywhere on that slide with `rendered_text`" (spec 4.3).  Every text box of
the slide has each occurrence of the original substring replaced. -/
def applyReplaceRequest (sl : SSlide) (req : Str × Str) : SSlide :=
  ⟨sl.objectId, sl.boxes.map (fun b => ⟨b.objectId, pyReplace b.raw req.1 req.2⟩)⟩

/-- The slide state after a first successful jinjify run: its batched
requests applied in order by the service. -/
def sslideAfterJinjify (render : Str → Str) (sl : SSlide) : SSlide :=
  (sslideRequests render sl).foldl applyReplaceRequest sl

/-- The deck state after a first successful jinjify run: each slide's batch
is scoped to that slide (`pageObjectIds`), so slides evolve independently. -/
def deckAfterJinjify (render : Str → Str) (slides : List SSlide) : List SSlide :=
  slides.map (sslideAfterJinjify render)

/-- All changed-record originals across a deck (the second run produces one
replace request per entry). -/
def deckChangedTexts (render : Str → Str) (slides : List SSlide) : List Str :=
  (slides.map (sslideChangedTexts render)).flatten

/-- The hypotheses under which a second jinjify run is a no-op: for every
text box of the slide, the raw text is already stripped, the rendered text
is stripped and is a fixed point of a second render, and each changed
original is non-empty, occurs in another box's raw text only as the whole
text, and occurs in no rendered text of the slide. -/
def C6SlideHyp (render : Str → Str) (sl : SSlide) : Prop :=
  ∀ b ∈ sl.boxes,
    pyStrip b.raw = b.raw ∧
    pyStrip (render b.raw) = render b.raw ∧
    render (render b.raw) = render b.raw ∧
    (render b.raw ≠ b.raw →
      b.raw ≠ [] ∧
      ∀ b2 ∈ sl.boxes,
        (pyIn b.raw b2.raw = true → b2.raw = b.raw) ∧
        pyIn b.raw (render b2.raw) = false)

end Sliger

namespace Sliger

/-- Example render function: a Jinja environment/data pair under which the
template `a` renders to `b` and everything else is placeholder-free. -/
def renderAB : Str → Str := fun s => if s = str "a" then str "b" else s

/-- Example render function for the idempotence counterexample: `a` renders
to `b`, `xbx` renders to `q`, everything else is placeholder-free.  It is
idempotent on every string (shown in the counterexample theorem). -/
def renderC : Str → Str :=
  fun s => if s = str "a" then str "b" else if s = str "xbx" then str "q" else s

/-- Example deck for the idempotence counterexample: one slide with a box
containing `a` and a box containing `xax`. -/
def deckC : List SSlide := [⟨"slide1", [⟨"e1", str "a"⟩, ⟨"e2", str "xax"⟩]⟩]

/-- Example deck for the idempotence witness: one slide with boxes `a` and
`xy`; under `renderAB` only the first is changed. -/
def deckW : List SSlide := [⟨"slide1", [⟨"e1", str "a"⟩, ⟨"e2", str "xy"⟩]⟩]

/-- Example render function whose output on the text `t` carries leading
whitespace around an image placeholder. -/
def renderLeadingWS : Str → Str := fun _ => str " ![image](foo.jpg)"

/-- Example render function for the templated-path witness: the box text
`T` renders to a placeholder whose inner path is a template expression,
which itself renders to `x.png`. -/
def renderTplPath : Str → Str :=
  fun s =>
    if s = str "T" then str "![image](\x7b\x7b path \x7d\x7d)"
    else if s = str "\x7b\x7b path \x7d\x7d" then str "x.png"
    else s

/-- A concrete text-box page element whose single run holds `content`. -/
def mkTextBox (id : String) (content : Str) : PageElement :=
  ⟨id, some ⟨"TEXT_BOX", some ⟨[some content]⟩⟩, some "sz", some "tf"⟩

end Sliger

namespace Sliger

lemma pyLStrip_def (s : Str) : pyLStrip s = s.dropWhile isPySpace := rfl

lemma pyRStrip_def (s : Str) : pyRStrip s = List.rdropWhile isPySpace s := rfl

lemma pyLStrip_pyRStrip_pyLStrip (s : Str) :
    pyLStrip (pyRStrip (pyLStrip s)) = pyRStrip (pyLStrip s) := by
  rcases h : pyRStrip (pyLStrip s) with _ | ⟨a, t⟩
  · simp [pyLStrip]
  · have hpre := List.rdropWhile_prefix isPySpace (pyLStrip s)
    rw [← pyRStrip_def, h] at hpre
    obtain ⟨r, hr⟩ := hpre
    have hls : List.dropWhile isPySpace s = a :: (t ++ r) := by
      rw [← pyLStrip_def]
      exact hr.symm
    have hne : List.dropWhile isPySpace s ≠ [] := by
      rw [hls]
      simp
    have hhead := List.head_dropWhile_not isPySpace s hne
    have h1 : (List.dropWhile isPySpace s).head? = some a := by
      rw [hls]
      rfl
    have h2 : (List.dropWhile isPySpace s).head? =
        some ((List.dropWhile isPySpace s).head hne) := List.head?_eq_head hne
    rw [h1] at h2
    rw [← Option.some_inj.mp h2] at hhead
    rw [pyLStrip_def, List.dropWhile_cons_of_neg (by simp [hhead])]

lemma pyStrip_idem (s : Str) : pyStrip (pyStrip s) = pyStrip s := by
  show pyRStrip (pyLStrip (pyRStrip (pyLStrip s))) = pyRStrip (pyLStrip s)
  rw [pyLStrip_pyRStrip_pyLStrip, pyRStrip_def, pyRStrip_def, List.rdropWhile_idempotent]

lemma pyReplaceGo_nil (old new : Str) (fuel : Nat) : pyReplaceGo old new fuel [] = [] := by
  cases fuel <;> rfl

lemma pyIn_cons_false {old : Str} {c : Char} {rest : Str}
    (h : pyIn old (c :: rest) = false) :
    old.isPrefixOf (c :: rest) = false ∧ pyIn old rest = false := by
  rw [pyIn] at h
  exact Bool.or_eq_false_iff.mp h

lemma pyReplaceGo_not_in (old new : Str) :
    ∀ (fuel : Nat) (s : Str), s.length ≤ fuel → pyIn old s = false →
      pyReplaceGo old new fuel s = s := by
  intro fuel
  induction fuel with
  | zero =>
    intro s hs _
    rw [List.length_eq_zero.mp (Nat.le_zero.mp hs)]
    rfl
  | succ f ih =>
    intro s hs h
    match s with
    | [] => rfl
    | c :: rest =>
      obtain ⟨h1, h2⟩ := pyIn_cons_false h
      rw [pyReplaceGo, if_neg (by simp [h1])]
      rw [ih rest (Nat.le_of_succ_le_succ hs) h2]

lemma pyReplace_not_in (s old new : Str) (h : pyIn old s = false) :
    pyReplace s old new = s := by
  have hne : old ≠ [] := by
    intro he
    subst he
    cases s <;> simp [pyIn, List.isPrefixOf] at h
  rw [pyReplace, if_neg hne]
  exact pyReplaceGo_not_in old new s.length s le_rfl h

lemma pyReplaceGo_self (old new : Str) (h : old ≠ []) (fuel : Nat) (hf : 1 ≤ fuel) :
    pyReplaceGo old new fuel old = new := by
  obtain ⟨c, rest, rfl⟩ := List.exists_cons_of_ne_nil h
  match fuel, hf with
  | f + 1, _ =>
    rw [pyReplaceGo,
      if_pos ⟨List.isPrefixOf_iff_prefix.mpr (List.prefix_refl _), h⟩,
      List.drop_length, pyReplaceGo_nil]
    simp

lemma pyReplace_self (old new : Str) (h : old ≠ []) : pyReplace old old new = new := by
  rw [pyReplace, if_neg h]
  exact pyReplaceGo_self old new h old.length (by
    cases old with
    | nil => exact absurd rfl h
    | cons c t => simp)

lemma foldl_replace_noop (reqs : List (Str × Str)) (v : Str)
    (h : ∀ r ∈ reqs, pyIn r.1 v = false) :
    reqs.foldl (fun cur r => pyReplace cur r.1 r.2) v = v := by
  induction reqs with
  | nil => rfl
  | cons r rest ih =>
    rw [List.foldl_cons, pyReplace_not_in v r.1 r.2 (h r (by simp))]
    exact ih (fun r' hr' => h r' (by simp [hr']))

lemma foldl_replace_eval (render : Str → Str) (reqs : List (Str × Str)) (u : Str)
    (hreq : ∀ r ∈ reqs, r.2 = render r.1 ∧ r.1 ≠ [] ∧
      (pyIn r.1 u = true → r.1 = u) ∧ pyIn r.1 (render u) = false) :
    reqs.foldl (fun cur r => pyReplace cur r.1 r.2) u =
      if reqs.any (fun r => r.1 == u) then render u else u := by
  induction reqs with
  | nil => rfl
  | cons r rest ih =>
    obtain ⟨h2, hne, heq, hniu⟩ := hreq r (by simp)
    by_cases ht : r.1 = u
    · rw [List.foldl_cons]
      have : pyReplace u r.1 r.2 = render u := by
        rw [ht] at h2 ⊢
        rw [h2, pyReplace_self u (render u) (ht ▸ hne)]
      rw [this, foldl_replace_noop rest (render u)
        (fun r' hr' => (hreq r' (by simp [hr'])).2.2.2)]
      rw [List.any_cons]
      simp [ht]
    · have hfu : pyIn r.1 u = false := by
        cases hc : pyIn r.1 u with
        | false => rfl
        | true => exact absurd (heq hc) ht
      rw [List.foldl_cons, pyReplace_not_in u r.1 r.2 hfu]
      rw [ih (fun r' hr' => hreq r' (by simp [hr']))]
      rw [List.any_cons]
      have hbeq : (r.1 == u) = false := by simpa using ht
      rw [hbeq, Bool.false_or]

lemma sboxes_map_eta (l : List SBox) :
    l.map (fun b => (⟨b.objectId, b.raw⟩ : SBox)) = l := by
  induction l with
  | nil => rfl
  | cons b t ih => simp [ih]

lemma foldl_applyReplaceRequest_boxes (reqs : List (Str × Str)) (sl : SSlide) :
    (reqs.foldl applyReplaceRequest sl).boxes =
      sl.boxes.map (fun b =>
        ⟨b.objectId, reqs.foldl (fun cur r => pyReplace cur r.1 r.2) b.raw⟩) := by
  induction reqs generalizing sl with
  | nil => exact (sboxes_map_eta sl.boxes).symm
  | cons r rest ih =>
    rw [List.foldl_cons, ih, applyReplaceRequest, List.map_map]
    rfl

lemma sslideChangedTexts_mem {render : Str → Str} {sl : SSlide} {t : Str} :
    t ∈ sslideChangedTexts render sl ↔
      (∃ b ∈ sl.boxes, pyStrip b.raw = t) ∧ render t ≠ t := by
  simp [sslideChangedTexts, sslideTexts, List.mem_filter]

lemma sslideAfterJinjify_second_run (render : Str → Str) (sl : SSlide)
    (hC : C6SlideHyp render sl) :
    sslideChangedTexts render (sslideAfterJinjify render sl) = [] := by
  rw [sslideChangedTexts, List.filter_eq_nil_iff]
  intro t ht
  rw [sslideTexts, sslideAfterJinjify, foldl_applyReplaceRequest_boxes,
    List.map_map, List.mem_map] at ht
  obtain ⟨b, hb, hbt⟩ := ht
  obtain ⟨hstrip, hstripR, hidem, hch⟩ := hC b hb
  have hreq : ∀ r ∈ sslideRequests render sl, r.2 = render r.1 ∧ r.1 ≠ [] ∧
      (pyIn r.1 b.raw = true → r.1 = b.raw) ∧ pyIn r.1 (render b.raw) = false := by
    intro r hr
    rw [sslideRequests, List.mem_map] at hr
    obtain ⟨t0, ht0, rfl⟩ := hr
    obtain ⟨⟨b0, hb0, hb0t⟩, hch0⟩ := sslideChangedTexts_mem.mp ht0
    have hb0raw : t0 = b0.raw := by rw [← hb0t, (hC b0 hb0).1]
    subst hb0raw
    have h4 := (hC b0 hb0).2.2.2 hch0
    exact ⟨rfl, h4.1, fun hin => ((h4.2 b hb).1 hin).symm, (h4.2 b hb).2⟩
  have hF := foldl_replace_eval render (sslideRequests render sl) b.raw hreq
  by_cases hchB : render b.raw = b.raw
  · have hany : (sslideRequests render sl).any (fun r => r.1 == b.raw) = false := by
      cases hc : (sslideRequests render sl).any (fun r => r.1 == b.raw) with
      | false => rfl
      | true =>
        obtain ⟨r, hr, hru⟩ := List.any_eq_true.mp hc
        rw [sslideRequests, List.mem_map] at hr
        obtain ⟨t0, ht0, rfl⟩ := hr
        have : t0 = b.raw := by simpa using hru
        subst this
        exact absurd hchB (sslideChangedTexts_mem.mp ht0).2
    rw [hany] at hF
    simp only [if_neg Bool.false_ne_true] at hF
    have : t = b.raw := by
      rw [← hbt]
      simp only [Function.comp]
      rw [hF, hstrip]
    rw [this]
    simp [hchB]
  · have hmem : b.raw ∈ sslideChangedTexts render sl :=
      sslideChangedTexts_mem.mpr ⟨⟨b, hb, hstrip⟩, hchB⟩
    have hany : (sslideRequests render sl).any (fun r => r.1 == b.raw) = true := by
      rw [sslideRequests]
      refine List.any_eq_true.mpr ⟨(b.raw, render b.raw), ?_, by simp⟩
      rw [List.mem_map]
      exact ⟨b.raw, hmem, rfl⟩
    rw [hany, if_pos rfl] at hF
    have : t = render b.raw := by
      rw [← hbt]
      simp only [Function.comp]
      rw [hF, hstripR]
    rw [this]
    simp [hidem]

lemma gslides_element_to_text_on_single_run (id pid : String) (content : Str)
    (sz tf : Option String) :
    gslides_element_to_text ⟨id, some ⟨"TEXT_BOX", some ⟨[some content]⟩⟩, sz, tf⟩ pid =
      ⟨id, pid, pyStrip content⟩ := by
  simp [gslides_element_to_text, joinRuns]

lemma jinjify_run_foldl (render : Str → Str) (slides : List Slide)
    (acc : List (List JVal) × Nat) :
    slides.foldl
      (fun acc slide =>
        let reqs := jinjify_slide_requests render slide
        if reqs.isEmpty then acc else (acc.1 ++ [reqs], acc.2 + reqs.length)) acc =
    (acc.1 ++ (slides.map (jinjify_slide_requests render)).filter (fun l => !l.isEmpty),
     acc.2 + ((slides.map (fun sl => (jinjify_slide_requests render sl).length)).sum)) := by
  induction slides generalizing acc with
  | nil => simp
  | cons sl rest ih =>
    rw [List.foldl_cons]
    by_cases he : (jinjify_slide_requests render sl).isEmpty = true
    · have hlen : (jinjify_slide_requests render sl).length = 0 := by
        rw [List.isEmpty_iff.mp he]
        rfl
      rw [if_pos he, ih]
      simp only [List.map_cons, List.filter_cons, List.sum_cons, he, hlen]
      simp
    · rw [if_neg he, ih]
      simp only [List.map_cons, List.filter_cons, List.sum_cons,
        Bool.not_eq_true] at he ⊢
      rw [he]
      simp only [Bool.not_false, if_true, Prod.mk.injEq]
      constructor
      · rw [List.append_assoc]
        rfl
      · omega

lemma parseImagePlaceholder_eq_some_iff (s mid : Str) :
    parseImagePlaceholder s = some mid ↔
      s = str "![image](" ++ (mid ++ [')']) ∧ '\n' ∉ mid := by
  constructor
  · intro h
    rw [parseImagePlaceholder] at h
    by_cases hp : (str "![image](").isPrefixOf s
    · rw [if_pos hp] at h
      obtain ⟨t, hts⟩ := List.isPrefixOf_iff_prefix.mp hp
      have hrest : s.drop (str "![image](").length = t := by
        rw [← hts, List.drop_left]
      rw [hrest] at h
      by_cases hc : t.getLast? = some ')' ∧ '\n' ∉ t.dropLast
      · rw [if_pos hc] at h
        have hmid : mid = t.dropLast := (Option.some_inj.mp h).symm
        have hne : t ≠ [] := by
          intro he
          rw [he] at hc
          simp at hc
        have hsplit := List.dropLast_append_getLast hne
        have hlast : t.getLast hne = ')' := by
          have := List.getLast?_eq_getLast t hne
          rw [hc.1] at this
          exact (Option.some_inj.mp this).symm
        refine ⟨?_, hmid ▸ hc.2⟩
        rw [← hts, hmid, ← hsplit, hlast]
        simp
      · rw [if_neg hc] at h
        simp at h
    · rw [if_neg hp] at h
      simp at h
  · rintro ⟨rfl, hn⟩
    have hp : (str "![image](").isPrefixOf (str "![image](" ++ (mid ++ [')'])) :=
      List.isPrefixOf_iff_prefix.mpr ⟨mid ++ [')'], rfl⟩
    rw [parseImagePlaceholder, if_pos hp, List.drop_left,
      if_pos ⟨List.getLast?_concat mid, by rw [List.dropLast_concat]; exact hn⟩,
      List.dropLast_concat]

lemma dget_pyDictSet_self {V : Type _} (d : List (String × V)) (k : String) (v : V) :
    dget (pyDictSet d (k, v)) k = some v := by
  induction d with
  | nil => simp [dget, pyDictSet]
  | cons kv t ih =>
    obtain ⟨k1, v1⟩ := kv
    by_cases h : k1 = k
    · simp [pyDictSet, dget, h]
    · simp [pyDictSet, dget, h, ih]

lemma dget_pyDictSet_ne {V : Type _} (d : List (String × V)) (k k' : String) (v : V)
    (h : k' ≠ k) : dget (pyDictSet d (k', v)) k = dget d k := by
  induction d with
  | nil => simp [dget, pyDictSet, h]
  | cons kv t ih =>
    obtain ⟨k1, v1⟩ := kv
    show dget (if k1 = k' then (k1, v) :: t else (k1, v1) :: pyDictSet t (k', v)) k = _
    by_cases h1 : k1 = k'
    · rw [if_pos h1]
      subst h1
      simp [dget, h]
    · rw [if_neg h1]
      by_cases h2 : k1 = k
      · simp [dget, h2]
      · simp [dget, h2, ih]

lemma dget_append {V : Type _} (l1 l2 : List (String × V)) (k : String) :
    dget (l1 ++ l2) k = (dget l1 k <|> dget l2 k) := by
  induction l1 with
  | nil => simp [dget]
  | cons kv t ih =>
    obtain ⟨k1, v1⟩ := kv
    by_cases h : k1 = k
    · simp [dget, h]
    · simp [dget, h, ih]

lemma dget_foldl_set {V : Type _} (data : List (String × V)) (d : List (String × V))
    (k : String) :
    dget (data.foldl pyDictSet d) k = (dget data.reverse k <|> dget d k) := by
  induction data generalizing d with
  | nil => simp [dget]
  | cons kv rest ih =>
    obtain ⟨k0, v0⟩ := kv
    rw [List.foldl_cons, ih, List.reverse_cons, dget_append]
    by_cases h : k0 = k
    · subst h
      rw [dget_pyDictSet_self]
      cases dget rest.reverse k0 <;> simp [dget]
    · rw [dget_pyDictSet_ne d k k0 v0 h]
      cases dget rest.reverse k <;> simp [dget, h]

lemma dget_eq_none_of_not_mem {V : Type _} (l : List (String × V)) (k : String)
    (h : k ∉ l.map Prod.fst) : dget l k = none := by
  induction l with
  | nil => rfl
  | cons kv t ih =>
    obtain ⟨k1, v1⟩ := kv
    simp only [List.map_cons, List.mem_cons] at h
    push_neg at h
    have h1 : ¬ k1 = k := fun he => h.1 he.symm
    simp [dget, h1, ih h.2]

lemma dget_none_iff_not_mem {V : Type _} (l : List (String × V)) (k : String) :
    dget l k = none ↔ k ∉ l.map Prod.fst := by
  constructor
  · intro h hmem
    induction l with
    | nil => simp at hmem
    | cons kv t ih =>
      obtain ⟨k1, v1⟩ := kv
      simp only [List.map_cons, List.mem_cons] at hmem
      by_cases he : k1 = k
      · simp [dget, he] at h
      · rcases hmem with hmem | hmem
        · exact he hmem.symm
        · exact ih (by simpa [dget, he] using h) hmem
  · exact dget_eq_none_of_not_mem l k

lemma dget_reverse_of_nodup {V : Type _} (data : List (String × V))
    (h : (data.map Prod.fst).Nodup) (k : String) :
    dget data.reverse k = dget data k := by
  induction data with
  | nil => rfl
  | cons kv rest ih =>
    obtain ⟨k0, v0⟩ := kv
    simp only [List.map_cons, List.nodup_cons] at h
    rw [List.reverse_cons, dget_append]
    by_cases hk : k0 = k
    · subst hk
      have : dget rest.reverse k0 = none := by
        rw [dget_none_iff_not_mem]
        simpa using h.1
      rw [this]
      simp [dget]
    · rw [ih h.2]
      cases hrest : dget rest k <;> simp [dget, hk, hrest]

lemma ordinal_eq_spec (n : Nat) (h1 : 1 ≤ n) (h2 : n ≤ 31) :
    ordinal n = Nat.toDigits 10 n ++ ordinalSuffixSpec n := by
  interval_cases n <;> decide

/-- A sanity check that the model evaluates. -/
example : pyStrip (str "  hi \n") = str "hi" := by decide

example : pyReplace (str "xax") (str "a") (str "b") = str "xbx" := by decide

example : pyIn (str "ab") (str "xabx") = true := by decide

example : pySlice (str "tsnrhtdd") 1 4 = str "st" := by decide

example : get_slide_id_by_index [⟨"s1", []⟩, ⟨"s2", []⟩] 2 = some "s2" := by decide

example : get_slide_id_by_index [⟨"s1", []⟩, ⟨"s2", []⟩] 0 = none := by decide

example : get_slide_id_by_index [⟨"s1", []⟩, ⟨"s2", []⟩] (-1) = none := by decide

end Sliger

namespace Sliger

/-- Claim C1, counterexample to the claim as stated: the rendered text
` ![image](foo.jpg)` (leading space) does not match the placeholder pattern
as a whole string — the claim therefore says the element is not treated as
a placeholder — yet `cli.imagify` strips the rendered text before matching
(`rendered_text_content.strip()`, `cli.py` line 321) and does treat the
element as a placeholder with path `foo.jpg`. -/
theorem C1_claim_counterexample :
    renderLeadingWS (str "t") = str " ![image](foo.jpg)" ∧
    parseImagePlaceholder (str " ![image](foo.jpg)") = none ∧
    imagify_placeholder_path renderLeadingWS (str "t") = some (str "foo.jpg") := by
  refine ⟨rfl, by decide, by decide⟩

/-- Claim C1, amended: an element is treated as an image placeholder if and
only if its rendered text, after stripping leading and trailing whitespace,
is exactly `![image](` ++ mid ++ `)` with no newline inside; and on a match
the resolved path is the stripped re-render of the inner path when it
contains both `{` `{` and `}` `}` markers, and the stripped inner path
otherwise. -/
theorem C1_placeholder_match_amended (render : Str → Str) (text : Str) :
    ((imagify_placeholder_path render text).isSome ↔
      ∃ mid, pyStrip (render text) = str "![image](" ++ (mid ++ [')']) ∧ '\n' ∉ mid) ∧
    (∀ mid, pyStrip (render text) = str "![image](" ++ (mid ++ [')']) → '\n' ∉ mid →
      imagify_placeholder_path render text =
        some (if pyIn (str "\x7b\x7b") mid && pyIn (str "\x7d\x7d") mid
              then pyStrip (render mid) else pyStrip mid)) := by
  constructor
  · constructor
    · intro h
      rw [imagify_placeholder_path] at h
      cases hp : parseImagePlaceholder (pyStrip (render text)) with
      | none => rw [hp] at h; simp at h
      | some pt =>
        obtain ⟨h1, h2⟩ := (parseImagePlaceholder_eq_some_iff _ pt).mp hp
        exact ⟨pt, h1, h2⟩
    · rintro ⟨mid, hm, hn⟩
      have hp : parseImagePlaceholder (pyStrip (render text)) = some mid :=
        (parseImagePlaceholder_eq_some_iff _ _).mpr ⟨hm, hn⟩
      rw [imagify_placeholder_path, hp]
      rfl
  · intro mid hm hn
    have hp : parseImagePlaceholder (pyStrip (render text)) = some mid :=
      (parseImagePlaceholder_eq_some_iff _ _).mpr ⟨hm, hn⟩
    rw [imagify_placeholder_path, hp]

/-- Claim C1, witness: a box text `T` rendering to `![image]({{ path }})`
is matched, the templated inner path is rendered again, and the final path
resolves to `x.png`. -/
theorem C1_placeholder_match_amended_witness :
    imagify_placeholder_path renderTplPath (str "T") = some (str "x.png") := by
  have h := (C1_placeholder_match_amended renderTplPath (str "T")).2
    (str "\x7b\x7b path \x7d\x7d") (by decide) (by decide)
  rw [h]
  decide

/-- Claim C2: for every day of month 1..31 carried by the time value, the
`%O` substring of the format string is replaced, before formatting, by the
day followed by its ordinal suffix, where the suffix follows the spec's
rule (`st`/`nd`/`rd` exactly when the last digit is 1/2/3 and the day is
not 11/12/13, `th` otherwise). -/
theorem C2_strftime_ordinal (strftime : Str → PyTime → Str) (fmt : Str) (t : PyTime)
    (h1 : 1 ≤ t.tm_mday) (h2 : t.tm_mday ≤ 31) :
    strftime_with_ordinal strftime fmt t =
      strftime (pyReplace fmt (str "%O")
        (Nat.toDigits 10 t.tm_mday ++ ordinalSuffixSpec t.tm_mday)) t := by
  rw [strftime_with_ordinal, ordinal_eq_spec t.tm_mday h1 h2]

/-- Claim C2, witness: day 21 formats `%O` as `21st`. -/
theorem C2_strftime_ordinal_witness :
    (1 : Nat) ≤ 21 ∧ (21 : Nat) ≤ 31 ∧
    strftime_with_ordinal (fun s _ => s) (str "%O") ⟨21⟩ = str "21st" := by
  refine ⟨by decide, by decide, ?_⟩
  have h := C2_strftime_ordinal (fun s _ => s) (str "%O") ⟨21⟩ (by decide) (by decide)
  rw [h]
  decide

/-- Claim C3: `get_slide_id_by_index` is 1-based — it returns the objectId
of `slides[index-1]` when `1 ≤ index ≤ len(slides)` and `None` for every
other integer index (zero, negative, or above the length). -/
theorem C3_get_slide_id_by_index (slides : List Slide) (index : Int) :
    (1 ≤ index → index ≤ slides.length →
      ∃ sl, slides.get? (index - 1).toNat = some sl ∧
        get_slide_id_by_index slides index = some sl.objectId) ∧
    (index < 1 ∨ (slides.length : Int) < index →
      get_slide_id_by_index slides index = none) := by
  constructor
  · intro hl hu
    have hlt : (index - 1).toNat < slides.length := by omega
    have hsome : slides.get? (index - 1).toNat =
        some (slides.get ⟨(index - 1).toNat, hlt⟩) := List.get?_eq_get hlt
    refine ⟨_, hsome, ?_⟩
    rw [get_slide_id_by_index, if_pos ⟨by omega, hu⟩, hsome]
    rfl
  · intro h
    rw [get_slide_id_by_index, if_neg (by omega)]

/-- Claim C3, witness: on a three-slide deck, index 1 yields the first
slide's id while 0, 4 and -2 yield not-found. -/
theorem C3_get_slide_id_by_index_witness :
    get_slide_id_by_index [⟨"s1", []⟩, ⟨"s2", []⟩, ⟨"s3", []⟩] 1 = some "s1" ∧
    get_slide_id_by_index [⟨"s1", []⟩, ⟨"s2", []⟩, ⟨"s3", []⟩] 0 = none ∧
    get_slide_id_by_index [⟨"s1", []⟩, ⟨"s2", []⟩, ⟨"s3", []⟩] 4 = none ∧
    get_slide_id_by_index [⟨"s1", []⟩, ⟨"s2", []⟩, ⟨"s3", []⟩] (-2) = none := by
  refine ⟨?_, ?_, ?_, ?_⟩
  · obtain ⟨sl, h1, h2⟩ :=
      (C3_get_slide_id_by_index [⟨"s1", []⟩, ⟨"s2", []⟩, ⟨"s3", []⟩] 1).1
        (by decide) (by norm_num)
    have hs : sl = ⟨"s1", []⟩ :=
      Option.some_inj.mp (show some sl = some (⟨"s1", []⟩ : Slide) from h1.symm)
    rw [h2, hs]
  · exact (C3_get_slide_id_by_index _ 0).2 (Or.inl (by decide))
  · exact (C3_get_slide_id_by_index _ 4).2 (Or.inr (by norm_num))
  · exact (C3_get_slide_id_by_index _ (-2)).2 (Or.inl (by decide))

/-- Claim C4, counterexample to the claim as stated: when the fetched slide
list is empty, slide number 1 does not resolve to an id, and the command
does exit 1 without any batch-update call — but the `if not slides` guard
(`cli.py` lines 123-125) exits before the index lookup, so the
"doesn't exist" message the claim requires is never printed. -/
theorem C4_claim_counterexample :
    get_slide_id_by_index [] 1 = none ∧
    delete_slide_cmd (some []) 1 true = ⟨1, [], false⟩ := by
  exact ⟨by decide, rfl⟩

/-- Claim C4, amended: on a non-empty fetched slide list, an unresolved
slide number makes the command report "doesn't exist" and exit 1 with no
batch-update call; the delete request is submitted exactly when the index
resolves; a failed fetch or an empty slide list exits 1 with no call and
no "doesn't exist" report. -/
theorem C4_delete_slide_amended (slides : List Slide) (n : Int) (ok : Bool) :
    (slides ≠ [] → get_slide_id_by_index slides n = none →
      delete_slide_cmd (some slides) n ok = ⟨1, [], true⟩) ∧
    (∀ sid, get_slide_id_by_index slides n = some sid →
      delete_slide_cmd (some slides) n ok =
        ⟨if ok then 0 else 1, [[deleteObjectReq sid]], false⟩) ∧
    delete_slide_cmd none n ok = ⟨1, [], false⟩ ∧
    delete_slide_cmd (some []) n ok = ⟨1, [], false⟩ := by
  refine ⟨?_, ?_, rfl, rfl⟩
  · intro hne hn
    obtain ⟨s0, rest, rfl⟩ := List.exists_cons_of_ne_nil hne
    simp [delete_slide_cmd, hn]
  · intro sid hs
    have hne : slides ≠ [] := by
      intro he
      subst he
      rw [get_slide_id_by_index, if_neg (by intro hc; simp at hc; omega)] at hs
      cases hs
    obtain ⟨s0, rest, rfl⟩ := List.exists_cons_of_ne_nil hne
    simp [delete_slide_cmd, hs]

/-- Claim C4, witness: on a one-slide deck, slide number 2 is reported and
refused with no call, while slide number 1 issues exactly the one delete
batch. -/
theorem C4_delete_slide_amended_witness :
    delete_slide_cmd (some [⟨"s1", []⟩]) 2 true = ⟨1, [], true⟩ ∧
    delete_slide_cmd (some [⟨"s1", []⟩]) 1 true = ⟨0, [[deleteObjectReq "s1"]], false⟩ := by
  constructor
  · exact (C4_delete_slide_amended [⟨"s1", []⟩] 2 true).1 (by decide) (by decide)
  · exact (C4_delete_slide_amended [⟨"s1", []⟩] 1 true).2.1 "s1" (by decide)

/-- Claim C5: the jinjify run submits, per slide, exactly one batch-update
call holding the requests of that slide's changed records whenever there is
at least one, skips slides whose request list is empty (no text elements or
no diffs), and reports a final total equal to the number of changed records
across all slides. -/
theorem C5_jinjify_batches (render : Str → Str) (slides : List Slide) :
    (jinjify_run render slides).1 =
      (slides.map (jinjify_slide_requests render)).filter (fun l => !l.isEmpty) ∧
    (jinjify_run render slides).2 =
      (slides.map (fun sl =>
        ((jinjify_parsed sl).filter (fun ti => render ti.text != ti.text)).length)).sum ∧
    (∀ sl ∈ slides, get_text_elements_from_slide sl = [] →
      jinjify_slide_requests render sl = []) ∧
    (∀ sl ∈ slides, (∀ ti ∈ jinjify_parsed sl, render ti.text = ti.text) →
      jinjify_slide_requests render sl = []) := by
  have h := jinjify_run_foldl render slides ([], 0)
  refine ⟨?_, ?_, ?_, ?_⟩
  · rw [jinjify_run, h]
    simp
  · rw [jinjify_run, h]
    simp [jinjify_slide_requests, List.length_map]
  · intro sl _ hsl
    rw [jinjify_slide_requests, jinjify_parsed, hsl]
    rfl
  · intro sl _ hsl
    rw [jinjify_slide_requests,
      List.filter_eq_nil_iff.mpr (fun ti hti => by simp [hsl ti hti])]
    rfl

/-- Claim C5, witness: on a deck with a slide holding one changed and one
unchanged text box plus an empty slide, the run issues exactly one batch
with one request and reports total 1; the empty slide contributes no
requests. -/
theorem C5_jinjify_batches_witness :
    (jinjify_run renderAB
        [⟨"sl1", [mkTextBox "e1" (str "a"), mkTextBox "e2" (str "b")]⟩, ⟨"sl2", []⟩]).1 =
      [[text_update_to_gslides_request ⟨str "a", str "b", "sl1", "e1"⟩]] ∧
    (jinjify_run renderAB
        [⟨"sl1", [mkTextBox "e1" (str "a"), mkTextBox "e2" (str "b")]⟩, ⟨"sl2", []⟩]).2 = 1 ∧
    jinjify_slide_requests renderAB ⟨"sl2", []⟩ = [] := by
  have h := C5_jinjify_batches renderAB
    [⟨"sl1", [mkTextBox "e1" (str "a"), mkTextBox "e2" (str "b")]⟩, ⟨"sl2", []⟩]
  refine ⟨?_, ?_, ?_⟩
  · rw [h.1]
    rfl
  · rw [h.2.1]
    rfl
  · exact h.2.2.1 ⟨"sl2", []⟩ (by simp) rfl

/-- Claim C6, counterexample to the claim as stated: `renderC` is
idempotent on every string (so in particular on its own output and on every
extracted text), yet on the one-slide deck with boxes `a` and `xax` the
first run's slide-wide replace of `a` by `b` rewrites the unrelated box
`xax` into `xbx`, and the second run renders `xbx` to `q`, producing one
change request instead of zero. -/
theorem C6_claim_counterexample :
    (∀ s : Str, renderC (renderC s) = renderC s) ∧
    deckChangedTexts renderC (deckAfterJinjify renderC deckC) = [str "xbx"] := by
  constructor
  · intro s
    by_cases h1 : s = str "a"
    · subst h1
      decide
    · by_cases h2 : s = str "xbx"
      · subst h2
        decide
      · simp [renderC, h1, h2]
  · decide

/-- Claim C6, amended: a second jinjify run against the deck produced by a
first successful run yields zero change requests, provided that for every
text box the raw text is stripped, the render of it is stripped and is a
fixed point of a second render, and every changed original text is
non-empty, occurs in other boxes of its slide only as their whole raw text,
and occurs in no rendered text of its slide. -/
theorem C6_jinjify_idempotent_amended (render : Str → Str) (slides : List SSlide)
    (hC : ∀ sl ∈ slides, C6SlideHyp render sl) :
    deckChangedTexts render (deckAfterJinjify render slides) = [] ∧
    ∀ sl ∈ deckAfterJinjify render slides, sslideRequests render sl = [] := by
  have hslide : ∀ sl ∈ slides,
      sslideChangedTexts render (sslideAfterJinjify render sl) = [] :=
    fun sl hsl => sslideAfterJinjify_second_run render sl (hC sl hsl)
  constructor
  · rw [deckChangedTexts, deckAfterJinjify, List.map_map]
    rw [List.flatten_eq_nil_iff]
    intro l hl
    rw [List.mem_map] at hl
    obtain ⟨sl, hsl, rfl⟩ := hl
    exact hslide sl hsl
  · intro sl hsl
    rw [deckAfterJinjify, List.mem_map] at hsl
    obtain ⟨sl0, h0, rfl⟩ := hsl
    rw [sslideRequests, hslide sl0 h0]
    rfl

/-- Claim C6, witness: on the deck with boxes `a` and `xy` under
`renderAB` (which satisfies all the amended hypotheses), the second run
yields zero change requests. -/
theorem C6_jinjify_idempotent_amended_witness :
    deckChangedTexts renderAB (deckAfterJinjify renderAB deckW) = [] := by
  refine (C6_jinjify_idempotent_amended renderAB deckW ?_).1
  intro sl hsl
  rw [show sl = ⟨"slide1", [⟨"e1", str "a"⟩, ⟨"e2", str "xy"⟩]⟩ from by
    simpa [deckW] using hsl]
  unfold C6SlideHyp
  decide

/-- Claim C7: the element-to-text-record conversion yields `""` when the
shape has no text field, otherwise the stripped in-order concatenation of
the text-run contents (sub-elements without a text run contributing `""`),
and every produced record's text equals its own strip. -/
theorem C7_gslides_element_to_text (el : PageElement) (pid : String) (sh : Shape)
    (hsh : el.shape = some sh) :
    (sh.text = none → (gslides_element_to_text el pid).text = []) ∧
    (∀ t, sh.text = some t →
      (gslides_element_to_text el pid).text = pyStrip (joinRuns t.textElements)) ∧
    pyStrip (gslides_element_to_text el pid).text = (gslides_element_to_text el pid).text := by
  refine ⟨?_, ?_, ?_⟩
  · intro ht
    simp [gslides_element_to_text, hsh, ht]
  · intro t ht
    simp [gslides_element_to_text, hsh, ht]
  · cases ht : sh.text with
    | none => simp [gslides_element_to_text, hsh, ht, pyStrip, pyLStrip, pyRStrip]
    | some t => simp [gslides_element_to_text, hsh, ht, pyStrip_idem]

/-- Claim C7, witness: a text box with no text field yields `""`, and a
text box with runs ` a`, (no run), `b<newline>` yields the stripped
concatenation `ab`. -/
theorem C7_gslides_element_to_text_witness :
    (gslides_element_to_text ⟨"e1", some ⟨"TEXT_BOX", none⟩, none, none⟩ "p1").text = [] ∧
    (gslides_element_to_text
      ⟨"e2", some ⟨"TEXT_BOX", some ⟨[some (str " a"), none, some (str "b \n")]⟩⟩,
        none, none⟩ "p1").text = str "ab" := by
  constructor
  · exact (C7_gslides_element_to_text ⟨"e1", some ⟨"TEXT_BOX", none⟩, none, none⟩ "p1"
      ⟨"TEXT_BOX", none⟩ rfl).1 rfl
  · have h := (C7_gslides_element_to_text
      ⟨"e2", some ⟨"TEXT_BOX", some ⟨[some (str " a"), none, some (str "b \n")]⟩⟩,
        none, none⟩ "p1"
      ⟨"TEXT_BOX", some ⟨[some (str " a"), none, some (str "b \n")]⟩⟩ rfl).2.1
      ⟨[some (str " a"), none, some (str "b \n")]⟩ rfl
    rw [h]
    decide

/-- Claim C8: the built text-replace request is a `replaceAllText` mutation
whose `containsText` is the original text with `matchCase` true, whose
`replaceText` is the rendered text, and whose `pageObjectIds` scope is
exactly the one-element list holding the containing slide's id. -/
theorem C8_text_update_request (change : TextChange) :
    ((jGet (text_update_to_gslides_request change) "replaceAllText").bind
        (fun o => jGet o "containsText")).bind (fun o => jGet o "text") =
      some (.cs change.original_text) ∧
    ((jGet (text_update_to_gslides_request change) "replaceAllText").bind
        (fun o => jGet o "containsText")).bind (fun o => jGet o "matchCase") =
      some (.b true) ∧
    (jGet (text_update_to_gslides_request change) "replaceAllText").bind
      (fun o => jGet o "replaceText") = some (.cs change.rendered_text) ∧
    (jGet (text_update_to_gslides_request change) "replaceAllText").bind
      (fun o => jGet o "pageObjectIds") = some (.arr [.s change.page_object_id]) := by
  exact ⟨rfl, rfl, rfl, rfl⟩

/-- Claim C9: a matched placeholder whose resolved local path does not
exist is skipped — the element's outcome is `missingFile`, with no upload
attempt and no batch-update call recorded for it — and the element loop
maps each element independently, so processing continues with the
remaining elements. -/
theorem C9_imagify_missing_file (render : Str → Str) (fE : Str → Bool)
    (upload : Str → Option String) (slide_id : String) (el : PageElement) (path : Str)
    (hmatch : imagify_placeholder_path render
      (gslides_element_to_text el slide_id).text = some path)
    (hmiss : fE path = false) :
    imagify_element render fE upload slide_id el = .missingFile path ∧
    outcomeUploads (imagify_element render fE upload slide_id el) = [] ∧
    outcomeBatches (imagify_element render fE upload slide_id el) = [] ∧
    (∀ els1 els2, imagifyElements render fE upload slide_id (els1 ++ els2) =
      imagifyElements render fE upload slide_id els1 ++
        imagifyElements render fE upload slide_id els2) := by
  have h : imagify_element render fE upload slide_id el = .missingFile path := by
    rw [imagify_element, hmatch]
    simp [hmiss]
  refine ⟨h, ?_, ?_, fun els1 els2 => List.map_append _ _ _⟩
  · rw [h]
    rfl
  · rw [h]
    rfl

/-- Claim C9, witness: with a file system on which nothing exists, the
placeholder `![image](missing.png)` is skipped as a missing file. -/
theorem C9_imagify_missing_file_witness :
    imagify_element (fun s => s) (fun _ => false) (fun _ => none) "p1"
      (mkTextBox "e1" (str "![image](missing.png)")) =
      .missingFile (str "missing.png") := by
  exact (C9_imagify_missing_file (fun s => s) (fun _ => false) (fun _ => none) "p1"
    (mkTextBox "e1" (str "![image](missing.png)")) (str "missing.png")
    (by decide) rfl).1

/-- Claim C10: the render context binds the per-call current-time value to
`now`, and a caller-supplied `now` entry in the data mapping takes
precedence over the injected value. -/
theorem C10_render_context_now {V : Type _} (nowVal : V) (data : List (String × V)) :
    (dget data "now" = none →
      dget (build_render_data nowVal data) "now" = some nowVal) ∧
    (∀ v, (data.map Prod.fst).Nodup → dget data "now" = some v →
      dget (build_render_data nowVal data) "now" = some v) := by
  constructor
  · intro h
    rw [build_render_data, dget_foldl_set]
    have hrev : dget data.reverse "now" = none := by
      rw [dget_none_iff_not_mem] at h ⊢
      simpa using h
    rw [hrev]
    simp [dget]
  · intro v hnd h
    rw [build_render_data, dget_foldl_set, dget_reverse_of_nodup data hnd, h]
    rfl

/-- Claim C10, witness: with no caller entry the injected time 5 is bound
to `now`; with a caller entry `now = 7` the caller's value wins. -/
theorem C10_render_context_now_witness :
    dget (build_render_data 5 ([] : List (String × Nat))) "now" = some 5 ∧
    dget (build_render_data 5 [("now", 7)]) "now" = some 7 := by
  constructor
  · exact (C10_render_context_now 5 []).1 rfl
  · exact (C10_render_context_now 5 [("now", 7)]).2 7 (by decide) rfl

end Sliger
